import Mathlib

/-!
Verification of the Argon2 core of this repository.

The two source files under verification are `src/argon2/src/lib.rs` (the
`Argon2` context: entry points, fill engine, finalizer) and
`src/argon2/src/segment_view.rs` (the `SegmentView` addressing cursor).
Machine integers (`usize`, `u64`, `u32`) are modelled as `Nat` with explicit
`% 2 ^ 64` (resp. truncating little-endian serialization) where the Rust code
performs wrapping 64-bit arithmetic.  Fallible operations return `Except`.

The crate modules `params.rs`, `block.rs`, `version.rs`, `algorithm.rs`,
`error.rs` and `variable_hash.rs` are not part of the source under
verification; their interfaces are modelled from the specification where
needed (each such definition carries a doc comment saying so), and the
external cryptographic capabilities (block compression, Blake2b-512, the
variable-length Blake2b construction) are explicit function parameters
collected in `Primitives`.
-/

/-- Number of synchronization points between lanes per pass (`SYNC_POINTS` in `lib.rs`). -/
def SYNC_POINTS : Nat := 4

/-- Number of reference-position words generated per address block (`ADDRESSES_IN_BLOCK`). -/
def ADDRESSES_IN_BLOCK : Nat := 128

/-- Maximum password length in bytes (`MAX_PWD_LEN` in `lib.rs`). -/
def MAX_PWD_LEN : Nat := 0xFFFFFFFF

/-- Minimum salt length in bytes (`MIN_SALT_LEN` in `lib.rs`). -/
def MIN_SALT_LEN : Nat := 8

/-- Maximum salt length in bytes (`MAX_SALT_LEN` in `lib.rs`). -/
def MAX_SALT_LEN : Nat := 0xFFFFFFFF

/-- Modelled from the spec: `params.rs` is not under `src/`; the configured
minimum output length in bytes of the `Params` output-length bounds. -/
def MIN_OUTPUT_LEN : Nat := 4

/-- Modelled from the spec: `params.rs` is not under `src/`; the configured
maximum output length in bytes of the `Params` output-length bounds. -/
def MAX_OUTPUT_LEN : Nat := 0xFFFFFFFF

/-- Modelled from the spec: `block.rs` is not under `src/`.  A `Block` is
exactly 1024 bytes viewed as 128 little-endian 64-bit words; it is modelled
as a list of naturals (each word below `2 ^ 64`). -/
abbrev Block := List Nat

/-- Modelled from the spec: `Block::default()`, the all-zero block of 128 words. -/
def Block.zero : Block := List.replicate 128 0

/-- Modelled from the spec: `xor_assign` on blocks is component-wise word XOR. -/
def Block.xor (a b : Block) : Block := List.zipWith Nat.xor a b

/-- Modelled from the spec: `params.rs` is not under `src/`.  The validated
configuration object, with the primitive fields the core reads through its
accessors.  Derived geometry follows spec section 3:
`lane_length = 4 * segment_length` (the spec states `lane_length` is a
multiple of 4 with `segment_length = lane_length / 4`) and
`block_count = lanes * lane_length`.  `m_cost` and `data` are carried only
for the initial hash; parallelism (`p_cost`) is the lane count and the time
cost (`t_cost`) is the iteration count, per spec section 6. -/
structure Params where
  lanes : Nat
  segment_length : Nat
  iterations : Nat
  m_cost : Nat
  output_len : Option Nat
  data : List Nat
deriving DecidableEq

/-- Blocks per lane: `4 * segment_length` (spec section 3). -/
def Params.lane_length (p : Params) : Nat := 4 * p.segment_length

/-- Total number of blocks: `lanes * lane_length` (spec section 3). -/
def Params.block_count (p : Params) : Nat := p.lanes * p.lane_length

/-- Parallelism degree serialized into the initial hash (spec section 6). -/
def Params.p_cost (p : Params) : Nat := p.lanes

/-- Time cost (iteration count) serialized into the initial hash (spec section 6). -/
def Params.t_cost (p : Params) : Nat := p.iterations

/-- Modelled from the spec: `algorithm.rs` is not under `src/`.  The three
Argon2 variants; their `as u64` identifiers 0, 1, 2 follow the published
algorithm identifiers the spec refers to. -/
inductive Algorithm
  | Argon2d
  | Argon2i
  | Argon2id
deriving DecidableEq

/-- Numeric identifier of an algorithm variant (its Rust `as u64` value). -/
def Algorithm.toNat : Algorithm → Nat
  | .Argon2d => 0
  | .Argon2i => 1
  | .Argon2id => 2

/-- Modelled from the spec: `version.rs` is not under `src/`.  The two
versions 0x10 and 0x13 (spec section 6). -/
inductive Version
  | V0x10
  | V0x13
deriving DecidableEq

/-- Numeric value of a version (its Rust `as u32` value). -/
def Version.toNat : Version → Nat
  | .V0x10 => 0x10
  | .V0x13 => 0x13

/-- Modelled from the spec: `error.rs` is not under `src/`.  The error
taxonomy of spec section 7. -/
inductive Error
  | PwdTooLong
  | SaltTooShort
  | SaltTooLong
  | SecretTooLong
  | OutputTooShort
  | OutputTooLong
  | MemoryTooLittle
deriving DecidableEq

/-- External cryptographic capabilities consumed by the core (spec section 1
lists them as out-of-scope collaborators): block compression
(`Block::compress` from the absent `block.rs`), Blake2b-512, the
variable-length hash `blake2b_long` from the absent `variable_hash.rs`, and
the byte/word conversions of a block.  The fill engine and entry points are
parametric in these. -/
structure Primitives where
  compress : Block → Block → Block
  blake2b512 : List Nat → List Nat
  blake2bLong : List (List Nat) → Nat → List Nat
  bytesToBlock : List Nat → Block
  blockToBytes : Block → List Nat

/-- State of the segment cursor (`SegmentView` in `segment_view.rs`, minus
the raw memory pointer, parameter reference and rng closure, which are
passed explicitly to the functions below). -/
structure SegmentView where
  pass : Nat
  slice : Nat
  lane : Nat
  b : Nat
  prev_index : Nat
  cur_index : Nat
deriving DecidableEq

/-- Embeds `SegmentView::new`: the starting cursor state for one
`(pass, slice, lane)` triple. -/
def SegmentView.new (p : Params) (pass slice lane : Nat) : SegmentView :=
  let first_block := if pass = 0 ∧ slice = 0 then 2 else 0
  let cur_index := lane * p.lane_length + slice * p.segment_length + first_block
  let prev_index :=
    if slice = 0 ∧ first_block = 0 then cur_index + p.lane_length - 1
    else cur_index - 1
  { pass := pass, slice := slice, lane := lane, b := first_block,
    prev_index := prev_index, cur_index := cur_index }

/-- Embeds the reference-lane computation at the head of
`SegmentView::ref_block`. -/
def SegmentView.ref_lane (s : SegmentView) (p : Params) (rand : Nat) : Nat :=
  if s.pass = 0 ∧ s.slice = 0 then s.lane
  else rand / 2 ^ 32 % p.lanes

/-- Embeds the `reference_area_size` computation of `SegmentView::ref_block`
(the `usize` subtractions are truncated, as `Nat` subtraction is). -/
def SegmentView.reference_area_size (s : SegmentView) (p : Params) (ref_lane : Nat) : Nat :=
  if s.pass = 0 then
    if s.slice = 0 then s.b - 1
    else if ref_lane = s.lane then s.slice * p.segment_length + s.b - 1
    else s.slice * p.segment_length - if s.b = 0 then 1 else 0
  else
    if ref_lane = s.lane then p.lane_length - p.segment_length + s.b - 1
    else p.lane_length - p.segment_length - if s.b = 0 then 1 else 0

/-- Embeds the remainder of `SegmentView::ref_block`, returning the absolute
index of the referenced block (the Rust function returns the reference to
the block at this index).  The two `u64` products carry an explicit
`% 2 ^ 64` for the 64-bit wrap. -/
def SegmentView.ref_index (s : SegmentView) (p : Params) (rand : Nat) : Nat :=
  let rl := s.ref_lane p rand
  let reference_area_size := s.reference_area_size p rl
  let map := rand % 2 ^ 32 * (rand % 2 ^ 32) % 2 ^ 64 / 2 ^ 32
  let relative_position :=
    reference_area_size - 1 - reference_area_size * map % 2 ^ 64 / 2 ^ 32
  let start_position :=
    if s.pass ≠ 0 ∧ s.slice ≠ SYNC_POINTS - 1 then (s.slice + 1) * p.segment_length
    else 0
  let lane_index := (start_position + relative_position) % p.lane_length
  rl * p.lane_length + lane_index

/-- Embeds the exhaustion test and yield of `Iterator::next` for
`SegmentView`: the yielded pair is `(cur_index, prev_index)` of the step (the
reference index of the step is `ref_index` applied to the step's random
value); `none` means the cursor is exhausted. -/
def SegmentView.next (s : SegmentView) (p : Params) : Option (Nat × Nat) :=
  if s.b = p.segment_length then none
  else some (s.cur_index, s.prev_index)

/-- Embeds the state change of `Iterator::next` for `SegmentView`: when not
exhausted, `b` advances and `prev_index`/`cur_index` slide forward. -/
def SegmentView.advance (p : Params) (s : SegmentView) : SegmentView :=
  if s.b = p.segment_length then s
  else { s with b := s.b + 1, prev_index := s.cur_index, cur_index := s.cur_index + 1 }

/-- Embeds the `data_independent_addressing` selection in `fill_blocks`
(`lib.rs` lines 282-286). -/
def data_independent_addressing (alg : Algorithm) (pass slice : Nat) : Bool :=
  match alg with
  | .Argon2i => true
  | .Argon2id => pass == 0 && decide (slice < SYNC_POINTS / 2)
  | .Argon2d => false

/-- The address-generation sub-state of a segment fill: the `address_block`
and `input_block` locals of the `fill_segment` closure (`zero_block` is the
constant `Block.zero`). -/
structure AddressState where
  address_block : Block
  input_block : Block

/-- Embeds `Argon2::update_address_block`: increment the counter word 6 of
the input block (64-bit wrapping), then compress twice against the zero
block. -/
def update_address_block (pr : Primitives) (a : AddressState) : AddressState :=
  let input_block := a.input_block.set 6 ((a.input_block.getD 6 0 + 1) % 2 ^ 64)
  let address_block := pr.compress Block.zero input_block
  let address_block := pr.compress Block.zero address_block
  { address_block := address_block, input_block := input_block }

/-- Embeds the `input_block` initialization of the `fill_segment` closure:
the first six words are `pass`, `lane`, `slice`, `block_count`, `iterations`
and the algorithm identifier; the remaining 122 words stay zero. -/
def init_input_block (p : Params) (alg : Algorithm) (pass lane slice : Nat) : Block :=
  [pass, lane, slice, p.block_count, p.iterations, alg.toNat] ++ List.replicate 122 0

/-- Embeds the address-state setup of the `fill_segment` closure: when
addressing is data-independent the input block is initialized, and for
`(pass = 0, slice = 0)` the first set of addresses is generated eagerly. -/
def init_address_state (pr : Primitives) (p : Params) (alg : Algorithm)
    (pass slice lane : Nat) : AddressState :=
  if data_independent_addressing alg pass slice then
    let a : AddressState :=
      { address_block := Block.zero, input_block := init_input_block p alg pass lane slice }
    if pass = 0 ∧ slice = 0 then update_address_block pr a else a
  else
    { address_block := Block.zero, input_block := Block.zero }

/-- Embeds the `rng` closure of `fill_blocks`: data-independent addressing
reads (and every 128 steps regenerates) the address block; data-dependent
addressing reads the first word of the previous block. -/
def rng_step (pr : Primitives) (di : Bool) (a : AddressState) (b : Nat)
    (prev_block : Block) : Nat × AddressState :=
  if di then
    let address_index := b % ADDRESSES_IN_BLOCK
    let a := if address_index = 0 then update_address_block pr a else a
    (a.address_block.getD address_index 0, a)
  else
    (prev_block.getD 0 0, a)

/-- Embeds one iteration of the fill loop of the `fill_segment` closure
together with the index bookkeeping of `SegmentView::next`: read the
previous block, draw the step's random value, read the reference block,
compress, and either overwrite the current block with the result (version
0x10 or pass 0) or XOR-accumulate it; then slide the cursor forward. -/
def fill_segment_step (pr : Primitives) (p : Params) (alg : Algorithm) (version : Version)
    (st : SegmentView × AddressState × List Block) : SegmentView × AddressState × List Block :=
  let s := st.1
  let a := st.2.1
  let m := st.2.2
  let prev_block := m.getD s.prev_index Block.zero
  let di := data_independent_addressing alg s.pass s.slice
  let ra := rng_step pr di a s.b prev_block
  let ref_block := m.getD (s.ref_index p ra.1) Block.zero
  let result := pr.compress prev_block ref_block
  let cur :=
    if version = Version.V0x10 ∨ s.pass = 0 then result
    else Block.xor (m.getD s.cur_index Block.zero) result
  ({ s with b := s.b + 1, prev_index := s.cur_index, cur_index := s.cur_index + 1 },
   ra.2, m.set s.cur_index cur)

/-- Embeds the `fill_segment` closure of `fill_blocks` for one
`(pass, slice, lane)` triple: construct the cursor, set up the address
state, and run one `fill_segment_step` per yielded triple (the cursor yields
`segment_length - b₀` triples, where `b₀` is the starting position). -/
def fill_segment (pr : Primitives) (p : Params) (alg : Algorithm) (version : Version)
    (pass slice lane : Nat) (m : List Block) : List Block :=
  let s0 := SegmentView.new p pass slice lane
  let a0 := init_address_state pr p alg pass slice lane
  ((fill_segment_step pr p alg version)^[p.segment_length - s0.b] (s0, a0, m)).2.2

/-- The 4-byte truncating little-endian serialization used by the Rust
`(x as u32).to_le_bytes()` calls of `initial_hash` and the block seeding. -/
def le32 (n : Nat) : List Nat :=
  [n % 2 ^ 8, n / 2 ^ 8 % 2 ^ 8, n / 2 ^ 16 % 2 ^ 8, n / 2 ^ 24 % 2 ^ 8]

/-- Embeds the seeding loop of `fill_blocks`: blocks 0 and 1 of every lane
are produced by `blake2b_long` over the initial hash digest and the
little-endian block and lane indices, filling one block (1024 bytes). -/
def seed_blocks (pr : Primitives) (p : Params) (initial_hash : List Nat)
    (m : List Block) : List Block :=
  (List.range p.lanes).foldl (fun m l =>
    (List.range 2).foldl (fun m i =>
      m.set (l * p.lane_length + i)
        (pr.bytesToBlock (pr.blake2bLong [initial_hash, le32 i, le32 l] 1024))) m) m

/-- The successful path of `fill_blocks`: seed, then run the full
`pass × slice × lane` schedule over the first `block_count` blocks, leaving
any surplus blocks of the caller's buffer unchanged. -/
def fill_blocks_result (pr : Primitives) (p : Params) (alg : Algorithm) (version : Version)
    (initial_hash : List Nat) (memory_blocks : List Block) : List Block :=
  let work := seed_blocks pr p initial_hash (memory_blocks.take p.block_count)
  let filled := (List.range p.iterations).foldl (fun m pass =>
    (List.range SYNC_POINTS).foldl (fun m slice =>
      (List.range p.lanes).foldl (fun m lane =>
        fill_segment pr p alg version pass slice lane m) m) m) work
  filled ++ memory_blocks.drop p.block_count

/-- Embeds `Argon2::fill_blocks`: the buffer must hold at least
`block_count` blocks (`get_mut(..block_count)` fails with `MemoryTooLittle`
otherwise, before any block is touched); on success the first `block_count`
blocks are seeded and filled and the rest are left as they were. -/
def fill_blocks (pr : Primitives) (p : Params) (alg : Algorithm) (version : Version)
    (initial_hash : List Nat) (memory_blocks : List Block) : Except Error (List Block) :=
  if p.block_count ≤ memory_blocks.length then
    Except.ok (fill_blocks_result pr p alg version initial_hash memory_blocks)
  else
    Except.error Error.MemoryTooLittle

/-- The Argon2 context (`struct Argon2` in `lib.rs`): algorithm variant,
version, parameters and optional secret. -/
structure Argon2Ctx where
  algorithm : Algorithm
  version : Version
  params : Params
  secret : Option (List Nat)

/-- Embeds the byte stream `Argon2::initial_hash` feeds to Blake2b-512:
`p_cost`, the output length, `m_cost`, `t_cost`, the version and algorithm
identifiers, then the length-prefixed password, salt, secret (an explicit
zero length when absent) and associated data, all little-endian 32-bit. -/
def initial_hash_input (ctx : Argon2Ctx) (pwd salt : List Nat) (out_len : Nat) : List Nat :=
  le32 ctx.params.p_cost ++ le32 out_len ++ le32 ctx.params.m_cost ++
  le32 ctx.params.t_cost ++ le32 ctx.version.toNat ++ le32 ctx.algorithm.toNat ++
  le32 pwd.length ++ pwd ++ le32 salt.length ++ salt ++
  (match ctx.secret with
   | some secret => le32 secret.length ++ secret
   | none => le32 0) ++
  le32 ctx.params.data.length ++ ctx.params.data

/-- Embeds `Argon2::initial_hash`: the Blake2b-512 digest of the input
stream above. -/
def initial_hash (pr : Primitives) (ctx : Argon2Ctx) (pwd salt : List Nat)
    (out_len : Nat) : List Nat :=
  pr.blake2b512 (initial_hash_input ctx pwd salt out_len)

/-- Embeds `Argon2::verify_inputs`: password and salt length validation. -/
def verify_inputs (pwd salt : List Nat) : Except Error Unit :=
  if pwd.length > MAX_PWD_LEN then Except.error Error.PwdTooLong
  else if salt.length < MIN_SALT_LEN then Except.error Error.SaltTooShort
  else if salt.length > MAX_SALT_LEN then Except.error Error.SaltTooLong
  else Except.ok ()

/-- Embeds `Argon2::finalize`: XOR the last block of every lane into the
last block of lane 0 and stretch the result to the requested output length
with `blake2b_long`. -/
def finalize (pr : Primitives) (p : Params) (memory_blocks : List Block)
    (out_len : Nat) : List Nat :=
  let lane_length := p.lane_length
  let blockhash := (List.range (p.lanes - 1)).foldl
    (fun bh l =>
      Block.xor bh (memory_blocks.getD ((l + 1) * lane_length + (lane_length - 1)) Block.zero))
    (memory_blocks.getD (lane_length - 1) Block.zero)
  pr.blake2bLong [pr.blockToBytes blockhash] out_len

/-- Embeds `Argon2::hash_password_into_with_memory`: validate the output
length against the configured bounds, validate password and salt, hash all
inputs (serializing the output buffer length), fill the memory and finalize.
The model returns the output bytes together with the final memory. -/
def hash_password_into_with_memory (pr : Primitives) (ctx : Argon2Ctx)
    (pwd salt : List Nat) (out_len : Nat) (memory_blocks : List Block) :
    Except Error (List Nat × List Block) :=
  if out_len < ctx.params.output_len.getD MIN_OUTPUT_LEN then
    Except.error Error.OutputTooShort
  else if out_len > ctx.params.output_len.getD MAX_OUTPUT_LEN then
    Except.error Error.OutputTooLong
  else
    match verify_inputs pwd salt with
    | Except.error e => Except.error e
    | Except.ok _ =>
      match fill_blocks pr ctx.params ctx.algorithm ctx.version
          (initial_hash pr ctx pwd salt out_len) memory_blocks with
      | Except.error e => Except.error e
      | Except.ok filled => Except.ok (finalize pr ctx.params filled out_len, filled)

/-- Embeds `Argon2::fill_memory`: validate password and salt, then fill the
memory; the initial hash is computed over an empty output buffer (`&[]`), so
the serialized output length is 0. -/
def fill_memory (pr : Primitives) (ctx : Argon2Ctx) (pwd salt : List Nat)
    (memory_blocks : List Block) : Except Error (List Block) :=
  match verify_inputs pwd salt with
  | Except.error e => Except.error e
  | Except.ok _ =>
    fill_blocks pr ctx.params ctx.algorithm ctx.version
      (initial_hash pr ctx pwd salt 0) memory_blocks

/-! ### List and iteration helpers -/

lemma getD_set_self (l : List Block) (i : Nat) (x d : Block) (h : i < l.length) :
    (l.set i x).getD i d = x := by
  simp [List.getD_eq_getElem?_getD, List.getElem?_set_self, h]

lemma getD_set_ne (l : List Block) (i j : Nat) (x d : Block) (h : j ≠ i) :
    (l.set i x).getD j d = l.getD j d := by
  simp [List.getD_eq_getElem?_getD, List.getElem?_set_ne, Ne.symm h]

lemma getD_append_right (a b : List Block) (i : Nat) (d : Block) (h : a.length ≤ i) :
    (a ++ b).getD i d = b.getD (i - a.length) d := by
  simp [List.getD_eq_getElem?_getD, List.getElem?_append_right, h]

lemma getD_drop (l : List Block) (n i : Nat) (d : Block) :
    (l.drop n).getD i d = l.getD (n + i) d := by
  simp [List.getD_eq_getElem?_getD, List.getElem?_drop]

/-- Iterating `SegmentView.advance` while the segment end has not been
reached slides `b` and the two indices forward in lock step. -/
lemma advance_iterate (p : Params) (s : SegmentView) (j : Nat)
    (h : s.b + j ≤ p.segment_length) :
    (SegmentView.advance p)^[j] s =
      if j = 0 then s else
        { pass := s.pass, slice := s.slice, lane := s.lane, b := s.b + j,
          prev_index := s.cur_index + j - 1, cur_index := s.cur_index + j } := by
  induction j with
  | zero => simp
  | succ k ih =>
    rw [Function.iterate_succ_apply']
    rw [ih (by omega)]
    by_cases hk : k = 0
    · subst hk
      simp only [if_pos rfl]
      have hb : s.b ≠ p.segment_length := by omega
      simp [SegmentView.advance, hb]
    · simp only [if_neg hk, if_neg (Nat.succ_ne_zero k)]
      have hb : s.b + k ≠ p.segment_length := by omega
      simp only [SegmentView.advance, if_neg hb]
      congr 1

/-- Once `b` has reached the segment end, `SegmentView.advance` is the
identity: the cursor stays exhausted forever. -/
lemma advance_iterate_done (p : Params) (s : SegmentView) (hb : s.b = p.segment_length)
    (j : Nat) : (SegmentView.advance p)^[j] s = s :=
  Function.iterate_fixed (by simp [SegmentView.advance, hb]) j

/-! ### C1: the reference-area size cases -/

/-- The reference-area size exactly as the specification words it, keyed on
`pass`, `slice` and whether the computed reference lane is the current
lane. -/
def reference_area_size_spec (p : Params) (pass slice lane b ref_lane : Nat) : Nat :=
  if pass = 0 ∧ slice = 0 then b - 1
  else if pass = 0 ∧ 0 < slice ∧ ref_lane = lane then slice * p.segment_length + b - 1
  else if pass = 0 ∧ 0 < slice then slice * p.segment_length - if b = 0 then 1 else 0
  else if ref_lane = lane then p.lane_length - p.segment_length + b - 1
  else p.lane_length - p.segment_length - if b = 0 then 1 else 0

/-- C1: at every step of a segment cursor, the reference-area size computed
by `SegmentView::ref_block` agrees with the five specification cases:
`b - 1` for pass 0 slice 0; `slice * segment_length + b - 1` for pass 0,
later slice, same lane; `slice * segment_length` minus `1` exactly when
`b = 0` for pass 0, later slice, different lane; and the analogous
`lane_length - segment_length` forms for later passes. -/
theorem reference_area_size_matches_spec (p : Params) (pass slice lane b pi ci ref_lane : Nat) :
    SegmentView.reference_area_size
      { pass := pass, slice := slice, lane := lane, b := b, prev_index := pi, cur_index := ci }
      p ref_lane =
    reference_area_size_spec p pass slice lane b ref_lane := by
  simp only [SegmentView.reference_area_size, reference_area_size_spec]
  set_option linter.unreachableTactic false in
  split_ifs <;> first | rfl | omega

/-! ### C2: the full reference-index computation -/

/-- The reference-area size never exceeds four segments (one lane), at any
cursor position within the segment. -/
lemma reference_area_size_le (p : Params) (s : SegmentView) (rl : Nat)
    (hb : s.b ≤ p.segment_length) (hs : s.slice < SYNC_POINTS) :
    s.reference_area_size p rl ≤ 4 * p.segment_length := by
  have hs3 : s.slice ≤ 3 := by
    have h4 : SYNC_POINTS = 4 := rfl
    omega
  have hmul : s.slice * p.segment_length ≤ 3 * p.segment_length :=
    Nat.mul_le_mul_right _ hs3
  unfold SegmentView.reference_area_size Params.lane_length
  split_ifs <;> omega

/-- The reference index exactly as the specification words it, in exact
64-bit integer arithmetic (no wrapping): reference lane, quadratic map of
the low 32 bits, relative position, start offset and final index. -/
def ref_index_spec (p : Params) (pass slice lane b rand : Nat) : Nat :=
  let ref_lane := if pass = 0 ∧ slice = 0 then lane else rand / 2 ^ 32 % p.lanes
  let area := reference_area_size_spec p pass slice lane b ref_lane
  let map := rand % 2 ^ 32 * (rand % 2 ^ 32) / 2 ^ 32
  let relative_position := area - 1 - area * map / 2 ^ 32
  let start_offset :=
    if 0 < pass ∧ slice ≠ SYNC_POINTS - 1 then (slice + 1) * p.segment_length else 0
  ref_lane * p.lane_length + (start_offset + relative_position) % p.lane_length

/-- C2: at every step of a segment cursor the computed reference lane is the
current lane for pass 0 slice 0 and `(rand >> 32) mod lanes` otherwise, and
the reference index follows the specification's exact 64-bit arithmetic:
`map = (low32 * low32) >> 32`,
`relative_position = area - 1 - ((area * map) >> 32)`, start offset
`(slice + 1) * segment_length` for later passes before the last slice and 0
otherwise, and final index
`ref_lane * lane_length + ((start_offset + relative_position) mod lane_length)`. -/
theorem ref_block_matches_spec (p : Params) (pass slice lane b pi ci rand : Nat)
    (hb : b ≤ p.segment_length) (hs : slice < SYNC_POINTS)
    (hS : p.segment_length ≤ 2 ^ 30) :
    SegmentView.ref_index
        { pass := pass, slice := slice, lane := lane, b := b,
          prev_index := pi, cur_index := ci } p rand =
      ref_index_spec p pass slice lane b rand ∧
    SegmentView.ref_lane
        { pass := pass, slice := slice, lane := lane, b := b,
          prev_index := pi, cur_index := ci } p rand =
      (if pass = 0 ∧ slice = 0 then lane else rand / 2 ^ 32 % p.lanes) := by
  refine ⟨?_, rfl⟩
  have hr : rand % 2 ^ 32 < 2 ^ 32 := Nat.mod_lt _ (by norm_num)
  have hmap : rand % 2 ^ 32 * (rand % 2 ^ 32) % 2 ^ 64 = rand % 2 ^ 32 * (rand % 2 ^ 32) := by
    have : rand % 2 ^ 32 * (rand % 2 ^ 32) < 2 ^ 32 * 2 ^ 32 :=
      Nat.mul_lt_mul_of_lt_of_le hr (le_of_lt hr) (by norm_num)
    exact Nat.mod_eq_of_lt (by norm_num at this ⊢; omega)
  have hmaplt : rand % 2 ^ 32 * (rand % 2 ^ 32) / 2 ^ 32 < 2 ^ 32 :=
    Nat.div_lt_of_lt_mul (Nat.mul_lt_mul_of_lt_of_le hr (le_of_lt hr) (by norm_num))
  simp only [SegmentView.ref_index, ref_index_spec, SegmentView.ref_lane,
    reference_area_size_matches_spec, hmap]
  have harea : reference_area_size_spec p pass slice lane b
      (if pass = 0 ∧ slice = 0 then lane else rand / 2 ^ 32 % p.lanes) ≤ 2 ^ 32 := by
    have := reference_area_size_le p
      { pass := pass, slice := slice, lane := lane, b := b, prev_index := pi, cur_index := ci }
      (if pass = 0 ∧ slice = 0 then lane else rand / 2 ^ 32 % p.lanes) hb hs
    rw [reference_area_size_matches_spec] at this
    calc reference_area_size_spec p pass slice lane b _ ≤ 4 * p.segment_length := this
    _ ≤ 4 * 2 ^ 30 := by omega
    _ ≤ 2 ^ 32 := by norm_num
  have hprod : reference_area_size_spec p pass slice lane b
        (if pass = 0 ∧ slice = 0 then lane else rand / 2 ^ 32 % p.lanes) *
        (rand % 2 ^ 32 * (rand % 2 ^ 32) / 2 ^ 32) % 2 ^ 64 =
      reference_area_size_spec p pass slice lane b
        (if pass = 0 ∧ slice = 0 then lane else rand / 2 ^ 32 % p.lanes) *
        (rand % 2 ^ 32 * (rand % 2 ^ 32) / 2 ^ 32) := by
    refine Nat.mod_eq_of_lt ?_
    calc reference_area_size_spec p pass slice lane b _ *
          (rand % 2 ^ 32 * (rand % 2 ^ 32) / 2 ^ 32)
        ≤ 2 ^ 32 * (rand % 2 ^ 32 * (rand % 2 ^ 32) / 2 ^ 32) :=
          Nat.mul_le_mul_right _ harea
      _ < 2 ^ 32 * 2 ^ 32 := by
          exact Nat.mul_lt_mul_of_le_of_lt (le_refl _) hmaplt (by norm_num)
      _ ≤ 2 ^ 64 := by norm_num
  rw [hprod]
  simp only [Nat.pos_iff_ne_zero]

/-! ### C5: pass 0, slice 0 references stay strictly behind the cursor -/

/-- Splitting an index of the form `lane * L + r` with `r < L` back into
lane number and position within the lane. -/
lemma lane_split_div_mod (lane L r : Nat) (hL : 0 < L) (hr : r < L) :
    (lane * L + r) / L = lane ∧ (lane * L + r) % L = r := by
  constructor
  · rw [Nat.mul_comm, Nat.mul_add_div hL, Nat.div_eq_of_lt hr, Nat.add_zero]
  · rw [Nat.mul_comm, Nat.mul_add_mod, Nat.mod_eq_of_lt hr]

/-- For a pass-0 slice-0 cursor state the reference index stays in the
current lane, strictly before position `b`. -/
lemma ref_index_first_slice (p : Params) (lane b pi ci rand : Nat) (hb : 2 ≤ b)
    (hbS : b ≤ p.segment_length) :
    SegmentView.ref_index
        { pass := 0, slice := 0, lane := lane, b := b, prev_index := pi, cur_index := ci }
        p rand / p.lane_length = lane ∧
    SegmentView.ref_index
        { pass := 0, slice := 0, lane := lane, b := b, prev_index := pi, cur_index := ci }
        p rand % p.lane_length < b := by
  have hLL : p.lane_length = 4 * p.segment_length := rfl
  simp only [SegmentView.ref_index, SegmentView.ref_lane, SegmentView.reference_area_size,
    eq_self_iff_true, and_self, if_true, ne_eq, not_true_eq_false, false_and, if_false,
    Nat.zero_add]
  generalize rand % 2 ^ 32 * (rand % 2 ^ 32) % 2 ^ 64 / 2 ^ 32 = M
  generalize (b - 1) * M % 2 ^ 64 / 2 ^ 32 = q
  have hrL : b - 1 - 1 - q < p.lane_length := by omega
  rw [Nat.mod_eq_of_lt hrL]
  have hsplit := lane_split_div_mod lane p.lane_length (b - 1 - 1 - q) (by omega) hrL
  exact ⟨hsplit.1, by rw [hsplit.2]; omega⟩

/-- The `b` field after iterating `SegmentView.advance` within the segment. -/
lemma advance_iterate_b (p : Params) (s : SegmentView) (j : Nat)
    (h : s.b + j ≤ p.segment_length) :
    ((SegmentView.advance p)^[j] s).b = s.b + j := by
  rw [advance_iterate p s j h]
  split_ifs with h0
  · omega
  · rfl

/-- The fields of the cursor other than `b` and the indices never change
while iterating `SegmentView.advance`. -/
lemma advance_iterate_frame (p : Params) (s : SegmentView) (j : Nat) :
    ((SegmentView.advance p)^[j] s).pass = s.pass ∧
    ((SegmentView.advance p)^[j] s).slice = s.slice ∧
    ((SegmentView.advance p)^[j] s).lane = s.lane := by
  induction j with
  | zero => exact ⟨rfl, rfl, rfl⟩
  | succ k ih =>
    rw [Function.iterate_succ_apply']
    have step : ∀ t : SegmentView, (SegmentView.advance p t).pass = t.pass ∧
        (SegmentView.advance p t).slice = t.slice ∧
        (SegmentView.advance p t).lane = t.lane := by
      intro t
      unfold SegmentView.advance
      split_ifs <;> exact ⟨rfl, rfl, rfl⟩
    obtain ⟨a1, a2, a3⟩ := step ((SegmentView.advance p)^[k] s)
    exact ⟨a1.trans ih.1, a2.trans ih.2.1, a3.trans ih.2.2⟩

/-- The cursor state reached after `j` steps of a pass-0 slice-0 segment. -/
lemma advance_iterate_first_slice (p : Params) (lane j : Nat)
    (hj : 2 + j ≤ p.segment_length) :
    (SegmentView.advance p)^[j] (SegmentView.new p 0 0 lane) =
      { pass := 0, slice := 0, lane := lane, b := 2 + j,
        prev_index := lane * p.lane_length + (1 + j),
        cur_index := lane * p.lane_length + (2 + j) } := by
  have hb0 : (SegmentView.new p 0 0 lane).b = 2 := by simp [SegmentView.new]
  rw [advance_iterate p _ j (by rw [hb0]; exact hj)]
  split_ifs with h0
  · subst h0
    simp [SegmentView.new, SegmentView.mk.injEq]
  · simp [SegmentView.new, SegmentView.mk.injEq]
    omega

/-- C5: for every step of a pass-0 slice-0 segment cursor (any lane), the
computed reference index lies in the current lane and its position within
the lane is strictly below the current position `b`: no forward or
same-block references on the very first slice. -/
theorem first_slice_references_backward (p : Params) (lane j rand : Nat)
    (hj : j < p.segment_length - 2) :
    ((SegmentView.advance p)^[j] (SegmentView.new p 0 0 lane)).ref_index p rand /
        p.lane_length = lane ∧
    ((SegmentView.advance p)^[j] (SegmentView.new p 0 0 lane)).ref_index p rand %
        p.lane_length <
      ((SegmentView.advance p)^[j] (SegmentView.new p 0 0 lane)).b := by
  rw [advance_iterate_first_slice p lane j (by omega)]
  exact ⟨(ref_index_first_slice p lane (2 + j) _ _ rand (by omega) (by omega)).1,
    (ref_index_first_slice p lane (2 + j) _ _ rand (by omega) (by omega)).2⟩

/-! ### C7: the cursor is exhausted after exactly one segment -/

/-- The cursor yields a triple exactly while `b` has not reached
`segment_length`. -/
lemma next_isNone_iff_b (s : SegmentView) (p : Params) :
    (s.next p).isNone = decide (s.b = p.segment_length) := by
  unfold SegmentView.next
  by_cases h : s.b = p.segment_length <;> simp [h]

/-- C7: a segment cursor yields exactly `segment_length` triples — except
for pass 0 slice 0, where it yields `segment_length - 2` because the first
two blocks of the lane are pre-seeded — and afterwards returns nothing
forever: the `j`-th call to `next` is exhausted precisely when `j` reaches
that count. -/
theorem segment_cursor_exhaustion (p : Params) (pass slice lane j : Nat)
    (hS : 2 ≤ p.segment_length) :
    (((SegmentView.advance p)^[j] (SegmentView.new p pass slice lane)).next p).isNone =
      decide ((if pass = 0 ∧ slice = 0 then p.segment_length - 2 else p.segment_length) ≤ j) := by
  have hb0 : (SegmentView.new p pass slice lane).b = if pass = 0 ∧ slice = 0 then 2 else 0 := by
    simp [SegmentView.new]
  rw [next_isNone_iff_b]
  by_cases h0 : pass = 0 ∧ slice = 0
  · simp only [if_pos h0] at hb0 ⊢
    by_cases hj : j < p.segment_length - 2
    · rw [advance_iterate_b p _ j (by omega), hb0]
      simp only [decide_eq_decide]
      omega
    · have hsplit : j = (j - (p.segment_length - 2)) + (p.segment_length - 2) := by omega
      rw [hsplit, Function.iterate_add_apply]
      have hbN : ((SegmentView.advance p)^[p.segment_length - 2]
          (SegmentView.new p pass slice lane)).b = p.segment_length := by
        rw [advance_iterate_b p _ _ (by omega), hb0]
        omega
      rw [advance_iterate_done p _ hbN, hbN]
      have htr : p.segment_length - 2 ≤ j - (p.segment_length - 2) + (p.segment_length - 2) := by
        omega
      simp [htr]
  · simp only [if_neg h0] at hb0 ⊢
    by_cases hj : j < p.segment_length
    · rw [advance_iterate_b p _ j (by omega), hb0]
      simp only [decide_eq_decide]
      omega
    · have hsplit : j = (j - p.segment_length) + p.segment_length := by omega
      rw [hsplit, Function.iterate_add_apply]
      have hbN : ((SegmentView.advance p)^[p.segment_length]
          (SegmentView.new p pass slice lane)).b = p.segment_length := by
        rw [advance_iterate_b p _ _ (by omega), hb0]
        omega
      rw [advance_iterate_done p _ hbN, hbN]
      have htr : p.segment_length ≤ j - p.segment_length + p.segment_length := by omega
      simp [htr]

/-! ### C8: every computed index stays inside the memory region -/

/-- The cursor state reached after `j` steps of any segment other than the
pass-0 slice-0 one (where iteration starts at position 0). -/
lemma advance_iterate_other_slice (p : Params) (pass slice lane j : Nat)
    (h0 : ¬(pass = 0 ∧ slice = 0)) (hj : j ≤ p.segment_length) :
    (SegmentView.advance p)^[j] (SegmentView.new p pass slice lane) =
      { pass := pass, slice := slice, lane := lane, b := j,
        prev_index := if j = 0
          then (if slice = 0
            then lane * p.lane_length + slice * p.segment_length + p.lane_length - 1
            else lane * p.lane_length + slice * p.segment_length - 1)
          else lane * p.lane_length + slice * p.segment_length + j - 1,
        cur_index := lane * p.lane_length + slice * p.segment_length + j } := by
  have hnew : SegmentView.new p pass slice lane =
      { pass := pass, slice := slice, lane := lane, b := 0,
        prev_index := if slice = 0
          then lane * p.lane_length + slice * p.segment_length + p.lane_length - 1
          else lane * p.lane_length + slice * p.segment_length - 1,
        cur_index := lane * p.lane_length + slice * p.segment_length } := by
    by_cases hsl : slice = 0
    · have hp : ¬pass = 0 := fun hp => h0 ⟨hp, hsl⟩
      simp [SegmentView.new, hsl, hp]
    · simp [SegmentView.new, h0, hsl]
  rw [advance_iterate p _ j (by rw [hnew]; simpa using hj)]
  rw [hnew]
  split_ifs <;> simp [SegmentView.mk.injEq] <;> omega

/-- At any genuine cursor step the reference-area size is at least 1, so the
`reference_area_size - 1` subtraction never underflows. -/
lemma reference_area_size_pos (p : Params) (s : SegmentView) (rl : Nat)
    (hS : 2 ≤ p.segment_length)
    (hb : s.pass = 0 ∧ s.slice = 0 → 2 ≤ s.b) :
    1 ≤ s.reference_area_size p rl := by
  have hLL : p.lane_length = 4 * p.segment_length := rfl
  have hm : s.slice = 0 ∨ p.segment_length ≤ s.slice * p.segment_length := by
    rcases Nat.eq_zero_or_pos s.slice with h | h
    · exact Or.inl h
    · exact Or.inr (Nat.le_mul_of_pos_left _ h)
  unfold SegmentView.reference_area_size
  split_ifs <;> omega

/-- Any index of the form `ref_lane * lane_length + (x mod lane_length)`
with `ref_lane < lanes` stays below `block_count`. -/
lemma lane_offset_lt_block_count (p : Params) (rl x : Nat) (hrl : rl < p.lanes)
    (hLL : 0 < p.lane_length) :
    rl * p.lane_length + x % p.lane_length < p.block_count := by
  have h1 : x % p.lane_length < p.lane_length := Nat.mod_lt _ hLL
  have h2 : (rl + 1) * p.lane_length = rl * p.lane_length + p.lane_length := by ring
  have h3 : (rl + 1) * p.lane_length ≤ p.lanes * p.lane_length :=
    Nat.mul_le_mul_right _ (by omega)
  have hbc : p.block_count = p.lanes * p.lane_length := rfl
  omega

/-- The reference index computed by `ref_block` is always inside the memory
region, for any cursor state in a valid lane. -/
lemma ref_index_lt_block_count (p : Params) (s : SegmentView) (rand : Nat)
    (hS : 0 < p.segment_length) (hlane : s.lane < p.lanes) :
    s.ref_index p rand < p.block_count := by
  have hlanes : 0 < p.lanes := by omega
  have hLL : 0 < p.lane_length := by
    have h4 : p.lane_length = 4 * p.segment_length := rfl
    omega
  have hrl : s.ref_lane p rand < p.lanes := by
    unfold SegmentView.ref_lane
    split_ifs
    · exact hlane
    · exact Nat.mod_lt _ hlanes
  simp only [SegmentView.ref_index]
  exact lane_offset_lt_block_count p _ _ hrl hLL

/-- C8: at every step of every segment cursor under the configuration
invariants, the reference-area size is at least 1 (no underflow in
`reference_area_size - 1`), and the current, previous and reference indices
are all strictly below `block_count`, so every block access stays inside the
supplied memory region. -/
theorem segment_cursor_safety (p : Params) (pass slice lane j rand : Nat)
    (hS : 2 ≤ p.segment_length) (hlane : lane < p.lanes) (hslice : slice < SYNC_POINTS)
    (hj : j < (if pass = 0 ∧ slice = 0 then p.segment_length - 2 else p.segment_length)) :
    1 ≤ ((SegmentView.advance p)^[j] (SegmentView.new p pass slice lane)).reference_area_size p
        (((SegmentView.advance p)^[j] (SegmentView.new p pass slice lane)).ref_lane p rand) ∧
    ((SegmentView.advance p)^[j] (SegmentView.new p pass slice lane)).cur_index <
      p.block_count ∧
    ((SegmentView.advance p)^[j] (SegmentView.new p pass slice lane)).prev_index <
      p.block_count ∧
    ((SegmentView.advance p)^[j] (SegmentView.new p pass slice lane)).ref_index p rand <
      p.block_count := by
  have hlanes : 0 < p.lanes := by omega
  have hLL : p.lane_length = 4 * p.segment_length := rfl
  have hbc : p.block_count = p.lanes * p.lane_length := rfl
  have h2 : (lane + 1) * p.lane_length = lane * p.lane_length + p.lane_length := by ring
  have h3 : (lane + 1) * p.lane_length ≤ p.lanes * p.lane_length :=
    Nat.mul_le_mul_right _ (by omega)
  have hsp : SYNC_POINTS = 4 := rfl
  by_cases h0 : pass = 0 ∧ slice = 0
  · have hj' : j < p.segment_length - 2 := by
      rw [if_pos h0] at hj
      exact hj
    obtain ⟨hp0, hs0⟩ := h0
    subst hp0
    subst hs0
    rw [advance_iterate_first_slice p lane j (by omega)]
    refine ⟨?_, ?_, ?_, ?_⟩
    · exact reference_area_size_pos p _ _ hS (fun _ => by show 2 ≤ 2 + j; omega)
    · show lane * p.lane_length + (2 + j) < p.block_count
      omega
    · show lane * p.lane_length + (1 + j) < p.block_count
      omega
    · exact ref_index_lt_block_count p _ rand (by omega) hlane
  · have hj' : j < p.segment_length := by
      rw [if_neg h0] at hj
      exact hj
    have hms : slice * p.segment_length ≤ 3 * p.segment_length :=
      Nat.mul_le_mul_right _ (by omega)
    have hms0 : slice = 0 → slice * p.segment_length = 0 := fun h => by rw [h]; ring
    rw [advance_iterate_other_slice p pass slice lane j h0 (by omega)]
    refine ⟨?_, ?_, ?_, ?_⟩
    · exact reference_area_size_pos p _ _ hS (fun hc => absurd hc h0)
    · show lane * p.lane_length + slice * p.segment_length + j < p.block_count
      omega
    · show (if j = 0
          then (if slice = 0
            then lane * p.lane_length + slice * p.segment_length + p.lane_length - 1
            else lane * p.lane_length + slice * p.segment_length - 1)
          else lane * p.lane_length + slice * p.segment_length + j - 1) < p.block_count
      split_ifs <;> omega
    · exact ref_index_lt_block_count p _ rand (by omega) hlane

/-! ### C3: overwrite versus XOR-accumulate combine semantics -/

/-- C3: one fill step writes exactly `compress(prev, ref)` into the current
block when the version is 0x10 or the pass is 0, and otherwise XORs that
result into the current block's previous content; every other block of the
memory is left unchanged. -/
theorem fill_step_combine (pr : Primitives) (p : Params) (alg : Algorithm)
    (version : Version) (s : SegmentView) (a : AddressState) (m : List Block) (i : Nat)
    (hcur : s.cur_index < m.length) (hi : i ≠ s.cur_index) :
    (fill_segment_step pr p alg version (s, a, m)).2.2.getD s.cur_index Block.zero =
      (let prev_block := m.getD s.prev_index Block.zero
       let rand := (rng_step pr (data_independent_addressing alg s.pass s.slice) a s.b
         prev_block).1
       let result := pr.compress prev_block (m.getD (s.ref_index p rand) Block.zero)
       if version = Version.V0x10 ∨ s.pass = 0 then result
       else Block.xor (m.getD s.cur_index Block.zero) result) ∧
    (fill_segment_step pr p alg version (s, a, m)).2.2.getD i Block.zero =
      m.getD i Block.zero := by
  constructor
  · simp only [fill_segment_step]
    rw [getD_set_self m s.cur_index _ _ hcur]
  · simp only [fill_segment_step]
    exact getD_set_ne m s.cur_index i _ _ hi

/-- A fixed trivial instantiation of the external capabilities, used to
evaluate the model on concrete inputs. -/
def trivial_primitives : Primitives :=
  { compress := fun _ _ => Block.zero
    blake2b512 := fun _ => List.replicate 64 0
    blake2bLong := fun _ n => List.replicate n 0
    bytesToBlock := fun _ => Block.zero
    blockToBytes := fun _ => List.replicate 1024 0 }

/-! ### Length preservation through the fill pipeline -/

/-- Folding a length-preserving update over any list preserves the memory
length. -/
lemma foldl_length_inv {α : Type} (f : List Block → α → List Block)
    (h : ∀ m a, (f m a).length = m.length) :
    ∀ (l : List α) (m : List Block), (l.foldl f m).length = m.length := by
  intro l
  induction l with
  | nil => intro m; rfl
  | cons a t ih =>
    intro m
    rw [List.foldl_cons, ih (f m a), h m a]

lemma fill_segment_step_length (pr : Primitives) (p : Params) (alg : Algorithm)
    (version : Version) (st : SegmentView × AddressState × List Block) :
    (fill_segment_step pr p alg version st).2.2.length = st.2.2.length := by
  simp [fill_segment_step]

lemma fill_segment_step_iterate_length (pr : Primitives) (p : Params) (alg : Algorithm)
    (version : Version) (n : Nat) (st : SegmentView × AddressState × List Block) :
    ((fill_segment_step pr p alg version)^[n] st).2.2.length = st.2.2.length := by
  induction n generalizing st with
  | zero => rfl
  | succ k ih =>
    rw [Function.iterate_succ_apply]
    rw [ih (fill_segment_step pr p alg version st), fill_segment_step_length]

lemma fill_segment_length (pr : Primitives) (p : Params) (alg : Algorithm)
    (version : Version) (pass slice lane : Nat) (m : List Block) :
    (fill_segment pr p alg version pass slice lane m).length = m.length := by
  unfold fill_segment
  rw [fill_segment_step_iterate_length]

lemma seed_blocks_length (pr : Primitives) (p : Params) (initial_hash : List Nat)
    (m : List Block) : (seed_blocks pr p initial_hash m).length = m.length := by
  unfold seed_blocks
  apply foldl_length_inv
  intro m' l
  apply foldl_length_inv
  intro m'' i
  exact List.length_set m'' _ _

lemma fill_blocks_result_length (pr : Primitives) (p : Params) (alg : Algorithm)
    (version : Version) (initial_hash : List Nat) (memory_blocks : List Block)
    (h : p.block_count ≤ memory_blocks.length) :
    (fill_blocks_result pr p alg version initial_hash memory_blocks).length =
      memory_blocks.length := by
  unfold fill_blocks_result
  rw [List.length_append]
  have h1 : ∀ m : List Block, ((List.range p.iterations).foldl (fun m pass =>
      (List.range SYNC_POINTS).foldl (fun m slice =>
        (List.range p.lanes).foldl (fun m lane =>
          fill_segment pr p alg version pass slice lane m) m) m) m).length = m.length := by
    apply foldl_length_inv
    intro m pass
    apply foldl_length_inv
    intro m' slice
    apply foldl_length_inv
    intro m'' lane
    exact fill_segment_length pr p alg version pass slice lane m''
  rw [h1, seed_blocks_length, List.length_take, List.length_drop]
  omega

/-- The prefix of a successful fill has exactly `block_count` blocks, so
every surplus block keeps its original position in the appended result. -/
lemma fill_blocks_result_frame (pr : Primitives) (p : Params) (alg : Algorithm)
    (version : Version) (initial_hash : List Nat) (memory_blocks : List Block) (i : Nat)
    (h : p.block_count ≤ memory_blocks.length) (hi : p.block_count ≤ i) :
    (fill_blocks_result pr p alg version initial_hash memory_blocks).getD i Block.zero =
      memory_blocks.getD i Block.zero := by
  unfold fill_blocks_result
  have hlen : ((List.range p.iterations).foldl (fun m pass =>
      (List.range SYNC_POINTS).foldl (fun m slice =>
        (List.range p.lanes).foldl (fun m lane =>
          fill_segment pr p alg version pass slice lane m) m) m)
        (seed_blocks pr p initial_hash (memory_blocks.take p.block_count))).length =
      p.block_count := by
    have h1 : ∀ m : List Block, ((List.range p.iterations).foldl (fun m pass =>
        (List.range SYNC_POINTS).foldl (fun m slice =>
          (List.range p.lanes).foldl (fun m lane =>
            fill_segment pr p alg version pass slice lane m) m) m) m).length = m.length := by
      apply foldl_length_inv
      intro m pass
      apply foldl_length_inv
      intro m' slice
      apply foldl_length_inv
      intro m'' lane
      exact fill_segment_length pr p alg version pass slice lane m''
    rw [h1, seed_blocks_length, List.length_take]
    omega
  rw [getD_append_right _ _ i Block.zero (by omega), hlen, getD_drop]
  congr 1
  omega

/-! ### C4 and C9: buffer length checks and the frame condition -/

lemma verify_inputs_ok (pwd salt : List Nat) (hpwd : pwd.length ≤ MAX_PWD_LEN)
    (hs1 : MIN_SALT_LEN ≤ salt.length) (hs2 : salt.length ≤ MAX_SALT_LEN) :
    verify_inputs pwd salt = Except.ok () := by
  unfold verify_inputs
  rw [if_neg (by omega), if_neg (by omega), if_neg (by omega)]

/-- C4 (amended): with valid password, salt and output length, both entry
points fail with `MemoryTooLittle` exactly when the supplied buffer holds
fewer than `block_count` blocks; a buffer of `block_count` or more blocks is
accepted.  The length check happens before any block is touched: on the
error path the definition of `fill_blocks` returns before seeding or
filling anything. -/
theorem memory_too_little_iff (pr : Primitives) (ctx : Argon2Ctx) (pwd salt : List Nat)
    (out_len : Nat) (mem : List Block)
    (hpwd : pwd.length ≤ MAX_PWD_LEN) (hs1 : MIN_SALT_LEN ≤ salt.length)
    (hs2 : salt.length ≤ MAX_SALT_LEN)
    (ho1 : ctx.params.output_len.getD MIN_OUTPUT_LEN ≤ out_len)
    (ho2 : out_len ≤ ctx.params.output_len.getD MAX_OUTPUT_LEN) :
    (fill_memory pr ctx pwd salt mem = Except.error Error.MemoryTooLittle ↔
      mem.length < ctx.params.block_count) ∧
    (hash_password_into_with_memory pr ctx pwd salt out_len mem =
        Except.error Error.MemoryTooLittle ↔
      mem.length < ctx.params.block_count) := by
  have hv := verify_inputs_ok pwd salt hpwd hs1 hs2
  unfold fill_memory hash_password_into_with_memory
  rw [hv, if_neg (by omega), if_neg (by omega)]
  unfold fill_blocks
  by_cases hlen : ctx.params.block_count ≤ mem.length
  · constructor
    · simp [hlen]
    · simp [hlen]
  · constructor
    · simp [hlen]
      omega
    · simp [hlen]
      omega

/-- C9: when the supplied buffer is strictly longer than `block_count`, both
entry points succeed (no `MemoryTooLittle`), operate only on the first
`block_count` blocks, and leave every surplus block bit-for-bit unchanged. -/
theorem surplus_blocks_unchanged (pr : Primitives) (ctx : Argon2Ctx) (pwd salt : List Nat)
    (out_len i : Nat) (mem : List Block)
    (hpwd : pwd.length ≤ MAX_PWD_LEN) (hs1 : MIN_SALT_LEN ≤ salt.length)
    (hs2 : salt.length ≤ MAX_SALT_LEN)
    (ho1 : ctx.params.output_len.getD MIN_OUTPUT_LEN ≤ out_len)
    (ho2 : out_len ≤ ctx.params.output_len.getD MAX_OUTPUT_LEN)
    (hlen : ctx.params.block_count < mem.length) (hi : ctx.params.block_count ≤ i) :
    fill_memory pr ctx pwd salt mem =
      Except.ok (fill_blocks_result pr ctx.params ctx.algorithm ctx.version
        (initial_hash pr ctx pwd salt 0) mem) ∧
    hash_password_into_with_memory pr ctx pwd salt out_len mem =
      Except.ok
        (finalize pr ctx.params
          (fill_blocks_result pr ctx.params ctx.algorithm ctx.version
            (initial_hash pr ctx pwd salt out_len) mem) out_len,
         fill_blocks_result pr ctx.params ctx.algorithm ctx.version
           (initial_hash pr ctx pwd salt out_len) mem) ∧
    (fill_blocks_result pr ctx.params ctx.algorithm ctx.version
        (initial_hash pr ctx pwd salt 0) mem).length = mem.length ∧
    (fill_blocks_result pr ctx.params ctx.algorithm ctx.version
        (initial_hash pr ctx pwd salt 0) mem).getD i Block.zero =
      mem.getD i Block.zero ∧
    (fill_blocks_result pr ctx.params ctx.algorithm ctx.version
        (initial_hash pr ctx pwd salt out_len) mem).length = mem.length ∧
    (fill_blocks_result pr ctx.params ctx.algorithm ctx.version
        (initial_hash pr ctx pwd salt out_len) mem).getD i Block.zero =
      mem.getD i Block.zero := by
  have hv := verify_inputs_ok pwd salt hpwd hs1 hs2
  refine ⟨?_, ?_, ?_, ?_, ?_, ?_⟩
  · unfold fill_memory
    rw [hv]
    unfold fill_blocks
    rw [if_pos (by omega)]
  · unfold hash_password_into_with_memory
    rw [hv, if_neg (by omega), if_neg (by omega)]
    unfold fill_blocks
    rw [if_pos (by omega)]
  · exact fill_blocks_result_length pr ctx.params ctx.algorithm ctx.version _ mem (by omega)
  · exact fill_blocks_result_frame pr ctx.params ctx.algorithm ctx.version _ mem i
      (by omega) hi
  · exact fill_blocks_result_length pr ctx.params ctx.algorithm ctx.version _ mem (by omega)
  · exact fill_blocks_result_frame pr ctx.params ctx.algorithm ctx.version _ mem i
      (by omega) hi

/-! ### C10: the serialized output length in the initial hash -/

/-- The 4-byte little-endian serialization determines, and is determined
by, the value modulo `2 ^ 32` (the Rust `as u32` cast truncates). -/
lemma le32_inj (a b : Nat) : le32 a = le32 b ↔ a % 2 ^ 32 = b % 2 ^ 32 := by
  unfold le32
  rw [List.cons.injEq, List.cons.injEq, List.cons.injEq, List.cons.injEq]
  constructor
  · rintro ⟨h1, h2, h3, h4, -⟩
    omega
  · intro h
    refine ⟨?_, ?_, ?_, ?_, rfl⟩ <;> omega

/-- Two initial-hash input streams that differ only in the serialized
output length coincide exactly when the output lengths agree modulo
`2 ^ 32`. -/
lemma initial_hash_input_eq_iff (ctx : Argon2Ctx) (pwd salt : List Nat) (o1 o2 : Nat) :
    initial_hash_input ctx pwd salt o1 = initial_hash_input ctx pwd salt o2 ↔
      o1 % 2 ^ 32 = o2 % 2 ^ 32 := by
  unfold initial_hash_input
  simp only [List.append_assoc]
  constructor
  · intro h
    have h2 := List.append_cancel_left h
    have h3 : le32 o1 = le32 o2 := by
      have h4 := congrArg (fun l => List.take 4 l) h2
      simpa [le32] using h4
    exact (le32_inj o1 o2).mp h3
  · intro h
    have h3 : le32 o1 = le32 o2 := (le32_inj o1 o2).mpr h
    rw [h3]

/-- C10: `fill_memory` computes the initial hash with the serialized output
length 0 (it hashes over an empty output buffer), the hashing entry point
serializes the actual output length, and the two initial-hash inputs —
hence, by congruence, the two fill results — coincide exactly when the
hashing call's output length is 0. -/
theorem fill_memory_output_length_zero (pr : Primitives) (ctx : Argon2Ctx)
    (pwd salt : List Nat) (out_len : Nat) (mem : List Block)
    (hpwd : pwd.length ≤ MAX_PWD_LEN) (hs1 : MIN_SALT_LEN ≤ salt.length)
    (hs2 : salt.length ≤ MAX_SALT_LEN)
    (ho1 : ctx.params.output_len.getD MIN_OUTPUT_LEN ≤ out_len)
    (ho2 : out_len ≤ ctx.params.output_len.getD MAX_OUTPUT_LEN)
    (h32 : out_len < 2 ^ 32) :
    fill_memory pr ctx pwd salt mem =
      fill_blocks pr ctx.params ctx.algorithm ctx.version
        (pr.blake2b512 (initial_hash_input ctx pwd salt 0)) mem ∧
    hash_password_into_with_memory pr ctx pwd salt out_len mem =
      (match fill_blocks pr ctx.params ctx.algorithm ctx.version
          (pr.blake2b512 (initial_hash_input ctx pwd salt out_len)) mem with
        | Except.error e => Except.error e
        | Except.ok filled => Except.ok (finalize pr ctx.params filled out_len, filled)) ∧
    (initial_hash_input ctx pwd salt out_len = initial_hash_input ctx pwd salt 0 ↔
      out_len = 0) := by
  have hv := verify_inputs_ok pwd salt hpwd hs1 hs2
  refine ⟨?_, ?_, ?_⟩
  · unfold fill_memory initial_hash
    rw [hv]
  · unfold hash_password_into_with_memory initial_hash
    rw [hv, if_neg (by omega), if_neg (by omega)]
  · rw [initial_hash_input_eq_iff]
    omega

/-! ### C6: version effect -/

/-- During pass 0 the combine step overwrites regardless of the version, so
one fill step is version-independent there. -/
lemma fill_segment_step_pass_zero (pr : Primitives) (p : Params) (alg : Algorithm)
    (v1 v2 : Version) (st : SegmentView × AddressState × List Block)
    (hp : st.1.pass = 0) :
    fill_segment_step pr p alg v1 st = fill_segment_step pr p alg v2 st := by
  simp only [fill_segment_step]
  rw [if_pos (Or.inr hp), if_pos (Or.inr hp)]

/-- One fill step never changes the `pass` field of the cursor. -/
lemma fill_segment_step_pass (pr : Primitives) (p : Params) (alg : Algorithm)
    (v : Version) (st : SegmentView × AddressState × List Block) :
    (fill_segment_step pr p alg v st).1.pass = st.1.pass := rfl

/-- Iterating the fill step on a pass-0 cursor is version-independent. -/
lemma fill_segment_step_iterate_pass_zero (pr : Primitives) (p : Params) (alg : Algorithm)
    (v1 v2 : Version) (n : Nat) (st : SegmentView × AddressState × List Block)
    (hp : st.1.pass = 0) :
    (fill_segment_step pr p alg v1)^[n] st = (fill_segment_step pr p alg v2)^[n] st := by
  induction n generalizing st with
  | zero => rfl
  | succ k ih =>
    rw [Function.iterate_succ_apply, Function.iterate_succ_apply]
    rw [fill_segment_step_pass_zero pr p alg v1 v2 st hp]
    exact ih _ (by rw [fill_segment_step_pass]; exact hp)

/-- Filling any pass-0 segment is version-independent. -/
lemma fill_segment_pass_zero_version (pr : Primitives) (p : Params) (alg : Algorithm)
    (v1 v2 : Version) (slice lane : Nat) (m : List Block) :
    fill_segment pr p alg v1 0 slice lane m = fill_segment pr p alg v2 0 slice lane m := by
  simp only [fill_segment]
  have hp : (SegmentView.new p 0 slice lane).pass = 0 := by simp [SegmentView.new]
  rw [fill_segment_step_iterate_pass_zero pr p alg v1 v2 _ _ hp]

/-- C6 (amended): with a single iteration the fill engine is
version-independent — for any fixed initial hash, `fill_blocks` with
version 0x10 and with version 0x13 produce identical memory, because the
overwrite branch is always taken on pass 0.  (The entry points nevertheless
feed different initial-hash inputs to the two versions, since the version
number is serialized into the initial hash; see the accompanying
counterexample.) -/
theorem fill_blocks_version_independent_single_pass (pr : Primitives) (p : Params)
    (alg : Algorithm) (initial_hash : List Nat) (mem : List Block)
    (h1 : p.iterations = 1) :
    fill_blocks pr p alg Version.V0x10 initial_hash mem =
      fill_blocks pr p alg Version.V0x13 initial_hash mem := by
  unfold fill_blocks fill_blocks_result
  rw [h1]
  have hr1 : List.range 1 = [0] := rfl
  rw [hr1]
  simp only [List.foldl_cons, List.foldl_nil]
  have hfun : (fun (m : List Block) (slice : Nat) =>
        (List.range p.lanes).foldl (fun m lane =>
          fill_segment pr p alg Version.V0x10 0 slice lane m) m) =
      (fun (m : List Block) (slice : Nat) =>
        (List.range p.lanes).foldl (fun m lane =>
          fill_segment pr p alg Version.V0x13 0 slice lane m) m) := by
    funext m' slice
    have hinner : (fun (m : List Block) (lane : Nat) =>
          fill_segment pr p alg Version.V0x10 0 slice lane m) =
        (fun (m : List Block) (lane : Nat) =>
          fill_segment pr p alg Version.V0x13 0 slice lane m) := by
      funext m'' lane
      exact fill_segment_pass_zero_version pr p alg Version.V0x10 Version.V0x13 slice lane m''
    rw [hinner]
  rw [hfun]

/-! ### Concrete instances for counterexamples and witnesses -/

/-- Decidable equality on results, to evaluate the model on concrete
inputs. -/
instance exceptDecEq {ε α : Type} [DecidableEq ε] [DecidableEq α] :
    DecidableEq (Except ε α) := fun a b =>
  match a, b with
  | Except.error e1, Except.error e2 =>
    if h : e1 = e2 then Decidable.isTrue (by rw [h])
    else Decidable.isFalse (fun hc => by cases hc; exact h rfl)
  | Except.ok v1, Except.ok v2 =>
    if h : v1 = v2 then Decidable.isTrue (by rw [h])
    else Decidable.isFalse (fun hc => by cases hc; exact h rfl)
  | Except.error _, Except.ok _ => Decidable.isFalse (fun hc => by cases hc)
  | Except.ok _, Except.error _ => Decidable.isFalse (fun hc => by cases hc)

/-- A minimal valid configuration: 1 lane, segments of 2 blocks (lane
length 8, block count 8), a single iteration. -/
def params_small : Params :=
  { lanes := 1, segment_length := 2, iterations := 1, m_cost := 8,
    output_len := some 4, data := [] }

/-- A configuration with segments of 3 blocks, so the pass-0 slice-0
segment performs at least one step. -/
def params_seg3 : Params :=
  { lanes := 1, segment_length := 3, iterations := 1, m_cost := 12,
    output_len := some 4, data := [] }

/-- Version 0x10 context over `params_small` (Argon2d, no secret). -/
def ctx_v16 : Argon2Ctx :=
  { algorithm := Algorithm.Argon2d, version := Version.V0x10,
    params := params_small, secret := none }

/-- Version 0x13 context over `params_small` (Argon2d, no secret). -/
def ctx_v19 : Argon2Ctx :=
  { algorithm := Algorithm.Argon2d, version := Version.V0x13,
    params := params_small, secret := none }

/-- Concrete external capabilities that only concatenate their inputs, so
the initial hash is propagated verbatim through seeding, filling and
finalization. -/
def leak_primitives : Primitives :=
  { compress := fun a b => a ++ b
    blake2b512 := fun x => x
    blake2bLong := fun inputs _ => inputs.flatten
    bytesToBlock := fun x => x
    blockToBytes := fun x => x }

/-- An 8-byte all-zero salt (the minimum valid salt length). -/
def salt8 : List Nat := List.replicate 8 0

/-- C6 counterexample: with a single iteration and all other inputs equal,
version 0x10 and version 0x13 do not produce equal outputs — the version
number is serialized into the initial hash, so the two runs hash different
byte streams (here made visible by concatenating capabilities). -/
theorem version_effect_counterexample :
    hash_password_into_with_memory leak_primitives ctx_v16 [] salt8 4
        (List.replicate 8 Block.zero) ≠
      hash_password_into_with_memory leak_primitives ctx_v19 [] salt8 4
        (List.replicate 8 Block.zero) := by
  decide

/-- C4 counterexample: a buffer one block longer than `block_count` is
accepted by `fill_memory` (no `MemoryTooLittle`), although its length
differs from `block_count`. -/
theorem memory_longer_accepted_counterexample :
    fill_memory trivial_primitives ctx_v19 [] salt8 (List.replicate 9 Block.zero) ≠
      Except.error Error.MemoryTooLittle ∧
    (List.replicate 9 (Block.zero : Block)).length ≠ ctx_v19.params.block_count := by
  constructor
  · decide
  · decide

/-- An exactly-sized memory buffer for `params_small`. -/
def mem8 : List Block := List.replicate 8 Block.zero

/-- A one-block-longer memory buffer for `params_small`. -/
def mem9 : List Block := List.replicate 9 Block.zero

/-- Witness for C2 at a concrete configuration, cursor position and random
value. -/
theorem ref_block_matches_spec_witness :
    ((1 : Nat) ≤ params_small.segment_length ∧ (2 : Nat) < SYNC_POINTS ∧
      params_small.segment_length ≤ 2 ^ 30) ∧
    (SegmentView.ref_index
        { pass := 1, slice := 2, lane := 0, b := 1, prev_index := 0, cur_index := 0 }
        params_small 81985529216486895 =
      ref_index_spec params_small 1 2 0 1 81985529216486895 ∧
     SegmentView.ref_lane
        { pass := 1, slice := 2, lane := 0, b := 1, prev_index := 0, cur_index := 0 }
        params_small 81985529216486895 =
      (if (1 : Nat) = 0 ∧ (2 : Nat) = 0 then 0
       else 81985529216486895 / 2 ^ 32 % params_small.lanes)) :=
  ⟨by decide, ref_block_matches_spec params_small 1 2 0 1 0 0 81985529216486895
    (by decide) (by decide) (by decide)⟩

/-- Witness for C3 at a concrete step of a pass-0 slice-1 segment. -/
theorem fill_step_combine_witness :
    ((2 : Nat) < (List.replicate 4 (Block.zero : Block)).length ∧ (0 : Nat) ≠ 2) ∧
    ((fill_segment_step trivial_primitives params_small Algorithm.Argon2d Version.V0x13
        ({ pass := 0, slice := 1, lane := 0, b := 0, prev_index := 1, cur_index := 2 },
         { address_block := Block.zero, input_block := Block.zero },
         List.replicate 4 Block.zero)).2.2.getD 2 Block.zero =
      (let prev_block := (List.replicate 4 (Block.zero : Block)).getD 1 Block.zero
       let rand := (rng_step trivial_primitives
         (data_independent_addressing Algorithm.Argon2d 0 1)
         { address_block := Block.zero, input_block := Block.zero } 0 prev_block).1
       let result := trivial_primitives.compress prev_block
         ((List.replicate 4 (Block.zero : Block)).getD
           (SegmentView.ref_index
             { pass := 0, slice := 1, lane := 0, b := 0, prev_index := 1, cur_index := 2 }
             params_small rand) Block.zero)
       if Version.V0x13 = Version.V0x10 ∨ (0 : Nat) = 0 then result
       else Block.xor ((List.replicate 4 (Block.zero : Block)).getD 2 Block.zero) result) ∧
     (fill_segment_step trivial_primitives params_small Algorithm.Argon2d Version.V0x13
        ({ pass := 0, slice := 1, lane := 0, b := 0, prev_index := 1, cur_index := 2 },
         { address_block := Block.zero, input_block := Block.zero },
         List.replicate 4 Block.zero)).2.2.getD 0 Block.zero =
      (List.replicate 4 (Block.zero : Block)).getD 0 Block.zero) :=
  ⟨⟨by decide, by decide⟩,
   fill_step_combine trivial_primitives params_small Algorithm.Argon2d Version.V0x13
     { pass := 0, slice := 1, lane := 0, b := 0, prev_index := 1, cur_index := 2 }
     { address_block := Block.zero, input_block := Block.zero }
     (List.replicate 4 Block.zero) 0 (by decide) (by decide)⟩

/-- Witness for the amended C4 at a concrete exactly-sized buffer. -/
theorem memory_too_little_iff_witness :
    (([] : List Nat).length ≤ MAX_PWD_LEN ∧ MIN_SALT_LEN ≤ salt8.length ∧
      salt8.length ≤ MAX_SALT_LEN ∧
      ctx_v19.params.output_len.getD MIN_OUTPUT_LEN ≤ 4 ∧
      (4 : Nat) ≤ ctx_v19.params.output_len.getD MAX_OUTPUT_LEN) ∧
    ((fill_memory trivial_primitives ctx_v19 [] salt8 mem8 =
        Except.error Error.MemoryTooLittle ↔
      mem8.length < ctx_v19.params.block_count) ∧
     (hash_password_into_with_memory trivial_primitives ctx_v19 [] salt8 4 mem8 =
        Except.error Error.MemoryTooLittle ↔
      mem8.length < ctx_v19.params.block_count)) :=
  ⟨by decide, memory_too_little_iff trivial_primitives ctx_v19 [] salt8 4 mem8
    (by decide) (by decide) (by decide) (by decide) (by decide)⟩

/-- Witness for C5 at the first step of a pass-0 slice-0 segment. -/
theorem first_slice_references_backward_witness :
    ((0 : Nat) < params_seg3.segment_length - 2) ∧
    (((SegmentView.advance params_seg3)^[0]
        (SegmentView.new params_seg3 0 0 0)).ref_index params_seg3 99 /
        params_seg3.lane_length = 0 ∧
     ((SegmentView.advance params_seg3)^[0]
        (SegmentView.new params_seg3 0 0 0)).ref_index params_seg3 99 %
        params_seg3.lane_length <
      ((SegmentView.advance params_seg3)^[0] (SegmentView.new params_seg3 0 0 0)).b) :=
  ⟨by decide, first_slice_references_backward params_seg3 0 0 99 (by decide)⟩

/-- Witness for the amended C6 at a concrete single-pass configuration. -/
theorem fill_blocks_version_independent_single_pass_witness :
    params_small.iterations = 1 ∧
    fill_blocks trivial_primitives params_small Algorithm.Argon2d Version.V0x10 [] mem8 =
      fill_blocks trivial_primitives params_small Algorithm.Argon2d Version.V0x13 [] mem8 :=
  ⟨rfl, fill_blocks_version_independent_single_pass trivial_primitives params_small
    Algorithm.Argon2d [] mem8 rfl⟩

/-- Witness for C7 at a concrete cursor and step count. -/
theorem segment_cursor_exhaustion_witness :
    2 ≤ params_small.segment_length ∧
    (((SegmentView.advance params_small)^[1]
        (SegmentView.new params_small 0 1 0)).next params_small).isNone =
      decide ((if (0 : Nat) = 0 ∧ (1 : Nat) = 0 then params_small.segment_length - 2
        else params_small.segment_length) ≤ 1) :=
  ⟨by decide, segment_cursor_exhaustion params_small 0 1 0 1 (by decide)⟩

/-- Witness for C8 at a concrete step of a pass-1 slice-2 segment. -/
theorem segment_cursor_safety_witness :
    (2 ≤ params_small.segment_length ∧ (0 : Nat) < params_small.lanes ∧
      (2 : Nat) < SYNC_POINTS ∧
      (0 : Nat) < (if (1 : Nat) = 0 ∧ (2 : Nat) = 0 then params_small.segment_length - 2
        else params_small.segment_length)) ∧
    (1 ≤ ((SegmentView.advance params_small)^[0]
        (SegmentView.new params_small 1 2 0)).reference_area_size params_small
        (((SegmentView.advance params_small)^[0]
          (SegmentView.new params_small 1 2 0)).ref_lane params_small 123456789) ∧
     ((SegmentView.advance params_small)^[0]
        (SegmentView.new params_small 1 2 0)).cur_index < params_small.block_count ∧
     ((SegmentView.advance params_small)^[0]
        (SegmentView.new params_small 1 2 0)).prev_index < params_small.block_count ∧
     ((SegmentView.advance params_small)^[0]
        (SegmentView.new params_small 1 2 0)).ref_index params_small 123456789 <
       params_small.block_count) :=
  ⟨by decide, segment_cursor_safety params_small 1 2 0 0 123456789
    (by decide) (by decide) (by decide) (by decide)⟩

/-- Witness for C9 at a concrete one-block-longer buffer. -/
theorem surplus_blocks_unchanged_witness :
    (([] : List Nat).length ≤ MAX_PWD_LEN ∧ MIN_SALT_LEN ≤ salt8.length ∧
      salt8.length ≤ MAX_SALT_LEN ∧
      ctx_v19.params.output_len.getD MIN_OUTPUT_LEN ≤ 4 ∧
      (4 : Nat) ≤ ctx_v19.params.output_len.getD MAX_OUTPUT_LEN ∧
      ctx_v19.params.block_count < mem9.length ∧ ctx_v19.params.block_count ≤ 8) ∧
    (fill_memory trivial_primitives ctx_v19 [] salt8 mem9 =
      Except.ok (fill_blocks_result trivial_primitives ctx_v19.params ctx_v19.algorithm
        ctx_v19.version (initial_hash trivial_primitives ctx_v19 [] salt8 0) mem9) ∧
     hash_password_into_with_memory trivial_primitives ctx_v19 [] salt8 4 mem9 =
      Except.ok
        (finalize trivial_primitives ctx_v19.params
          (fill_blocks_result trivial_primitives ctx_v19.params ctx_v19.algorithm
            ctx_v19.version (initial_hash trivial_primitives ctx_v19 [] salt8 4) mem9) 4,
         fill_blocks_result trivial_primitives ctx_v19.params ctx_v19.algorithm
           ctx_v19.version (initial_hash trivial_primitives ctx_v19 [] salt8 4) mem9) ∧
     (fill_blocks_result trivial_primitives ctx_v19.params ctx_v19.algorithm
        ctx_v19.version (initial_hash trivial_primitives ctx_v19 [] salt8 0) mem9).length =
       mem9.length ∧
     (fill_blocks_result trivial_primitives ctx_v19.params ctx_v19.algorithm
        ctx_v19.version (initial_hash trivial_primitives ctx_v19 [] salt8 0) mem9).getD 8
        Block.zero = mem9.getD 8 Block.zero ∧
     (fill_blocks_result trivial_primitives ctx_v19.params ctx_v19.algorithm
        ctx_v19.version (initial_hash trivial_primitives ctx_v19 [] salt8 4) mem9).length =
       mem9.length ∧
     (fill_blocks_result trivial_primitives ctx_v19.params ctx_v19.algorithm
        ctx_v19.version (initial_hash trivial_primitives ctx_v19 [] salt8 4) mem9).getD 8
        Block.zero = mem9.getD 8 Block.zero) :=
  ⟨by decide, surplus_blocks_unchanged trivial_primitives ctx_v19 [] salt8 4 8 mem9
    (by decide) (by decide) (by decide) (by decide) (by decide) (by decide) (by decide)⟩

/-- Witness for C10 at a concrete configuration with output length 4. -/
theorem fill_memory_output_length_zero_witness :
    (([] : List Nat).length ≤ MAX_PWD_LEN ∧ MIN_SALT_LEN ≤ salt8.length ∧
      salt8.length ≤ MAX_SALT_LEN ∧
      ctx_v19.params.output_len.getD MIN_OUTPUT_LEN ≤ 4 ∧
      (4 : Nat) ≤ ctx_v19.params.output_len.getD MAX_OUTPUT_LEN ∧ (4 : Nat) < 2 ^ 32) ∧
    (fill_memory trivial_primitives ctx_v19 [] salt8 mem8 =
      fill_blocks trivial_primitives ctx_v19.params ctx_v19.algorithm ctx_v19.version
        (trivial_primitives.blake2b512 (initial_hash_input ctx_v19 [] salt8 0)) mem8 ∧
     hash_password_into_with_memory trivial_primitives ctx_v19 [] salt8 4 mem8 =
      (match fill_blocks trivial_primitives ctx_v19.params ctx_v19.algorithm ctx_v19.version
          (trivial_primitives.blake2b512 (initial_hash_input ctx_v19 [] salt8 4)) mem8 with
        | Except.error e => Except.error e
        | Except.ok filled =>
          Except.ok (finalize trivial_primitives ctx_v19.params filled 4, filled)) ∧
     (initial_hash_input ctx_v19 [] salt8 4 = initial_hash_input ctx_v19 [] salt8 0 ↔
       (4 : Nat) = 0)) :=
  ⟨by decide, fill_memory_output_length_zero trivial_primitives ctx_v19 [] salt8 4 mem8
    (by decide) (by decide) (by decide) (by decide) (by decide) (by decide)⟩
